import Mathlib

/-!
Shallow embedding of the image-resizer service: the variant-record data
model, the S3 key derivations, the resolver (`ImageService`), the queue
module, and the resize worker's pipeline and `failed`-event hook, together
with theorems settling the specification claims about them.

Mongo documents are lists of records, the object store is a list of
`(key, size)` pairs, and the queue is a list of jobs.  External
nondeterminism (concurrent inserts racing with the resolver, delete
failures, the rendered buffer size, clock readings) is passed in as
explicit parameters.
-/

namespace ImageResizer

/-- Lifecycle status of a variant record (`ImageStatus` in
`src/models/image_variants`). -/
inductive ImageStatus
  | queued
  | processing
  | ready
  | failed
deriving DecidableEq, Repr

/-- Values of the `ImageFormats` string enum in the variant-record schema:
`png`, `jpeg`, `webp`.  TypeScript string enums are erased at runtime, so the
model keeps formats as `String` and checks membership exactly where the
Mongoose schema validates the field. -/
def imageFormatsValues : List String := ["png", "jpeg", "webp"]

/-- Format literals accepted by the zod `ImageQuerySchema`
(`z.enum(['jpeg', 'jpg', 'png', 'webp'])`). -/
def imageQueryFormats : List String := ["jpeg", "jpg", "png", "webp"]

/-- Format acceptance of the zod query schema.  The schema has no transform:
an accepted value is passed through unchanged. -/
def imageQueryFormatAccepted (format : String) : Bool :=
  imageQueryFormats.contains format

/-- The controller's format defaulting: `const imageFormat = format || 'webp'`. -/
def controllerImageFormat (format : Option String) : String :=
  format.getD "webp"

/-- A document of the `image_variants` collection. -/
structure ImageVariantDoc where
  docId : Nat
  imageId : String
  width : Nat
  height : Nat
  s3Key : String
  s3Bucket : String
  status : ImageStatus
  originalS3Key : String
  fileSize : Nat
  failedReason : Option String
  failedAt : Option Nat
  requeueCount : Nat
  imageFormat : String
  processingStartedAt : Option Nat
  processingCompletedAt : Option Nat
  createdAt : Nat
deriving DecidableEq, Repr

/-- Payload of a resize job (`ImageVariantJobData`). -/
structure ImageVariantJobData where
  imageId : String
  width : Nat
  height : Nat
  originalS3Key : String
  variantS3Key : String
  mongoDocId : Nat
  imageFormat : String
deriving DecidableEq, Repr

/-- A job sitting in the BullMQ queue: its name, payload and idempotency
token (`jobId`). -/
structure QueuedJob where
  name : String
  data : ImageVariantJobData
  jobId : String
deriving DecidableEq, Repr

/-- Combined external state: the Mongo collection, the object store
(keys with object sizes), the job queue, and a source of fresh ids. -/
structure SysState where
  db : List ImageVariantDoc
  s3 : List (String × Nat)
  queue : List QueuedJob
  nextId : Nat
deriving DecidableEq, Repr

/-- Errors raised on the resolver's read path. -/
inductive SvcError
  | invalidFilename
  | notFound (imageId : String)
  | validationError (field : String)
  | conflict
  | mongoDeleteFailed (docId : Nat)
  | s3DeleteFailed (s3Key : String)
deriving DecidableEq, Repr

/-- Filter used by the resolver's `findOne` and the unique index:
equality on the `(imageId, width, height, imageFormat)` quadruple. -/
def matchesQuad (imageId : String) (width height : Nat) (imageFormat : String)
    (d : ImageVariantDoc) : Bool :=
  d.imageId == imageId && d.width == width && d.height == height &&
    d.imageFormat == imageFormat

/-- `findById`: the unique document with the given `_id`, if any. -/
def findDoc (db : List ImageVariantDoc) (docId : Nat) : Option ImageVariantDoc :=
  db.find? (fun d => d.docId == docId)

/-- Replacement of the document with the given `_id` by its update. -/
def updById (db : List ImageVariantDoc) (docId : Nat)
    (f : ImageVariantDoc → ImageVariantDoc) : List ImageVariantDoc :=
  db.map (fun x => if x.docId == docId then f x else x)

/-- Mongoose `findByIdAndUpdate` with `new: true`: returns the updated
document (or `none` when no document has the id) and the updated
collection. -/
def findByIdAndUpdate (db : List ImageVariantDoc) (docId : Nat)
    (f : ImageVariantDoc → ImageVariantDoc) :
    Option ImageVariantDoc × List ImageVariantDoc :=
  match findDoc db docId with
  | none => (none, db)
  | some d => (some (f d), updById db docId f)

namespace S3Service

/-- `S3Service.getOriginalKey`: originals are stored under the image id
verbatim. -/
def getOriginalKey (imageId : String) : String := imageId

/-- Position of the last dot in a character list, mirroring the source's
`imageId.lastIndexOf('.')`; `none` stands for the sentinel `-1`. -/
def lastDotIndex : List Char → Option Nat
  | [] => none
  | c :: cs =>
    match lastDotIndex cs with
    | some i => some (i + 1)
    | none => if c = '.' then some 0 else none

/-- `S3Service.getVariantKey` (the operative version taking the format):
splits the image id at its last dot and builds `name___WxH.format`; throws
`Invalid filename, missing extension` when the id has no dot. -/
def getVariantKey (imageId : String) (width height : Nat) (format : String) :
    Except SvcError String :=
  match lastDotIndex imageId.data with
  | none => .error .invalidFilename
  | some i =>
    .ok (String.mk (imageId.data.take i) ++ "___" ++ toString width ++ "x" ++
      toString height ++ "." ++ format)

/-- `S3Service.getBucket`: the configured bucket name (env default). -/
def getBucket : String := "image-resizer-1764492037"

/-- `S3Service.exists`: head of the object store by key. -/
def existsKey (s3 : List (String × Nat)) (key : String) : Bool :=
  s3.any (fun kv => kv.1 == key)

end S3Service

/-- `ImageVariants.create`: Mongoose first validates the document against the
schema (the `imageFormat` enum admits only `png`, `jpeg`, `webp`), then the
insert is checked by the unique index on the quadruple, turning a second
insert into a duplicate-key error. -/
def createVariantDoc (db : List ImageVariantDoc) (nextId : Nat) (imageId : String)
    (width height : Nat) (s3Key s3Bucket : String) (originalS3Key : String)
    (imageFormat : String) (now : Nat) :
    Except SvcError (ImageVariantDoc × List ImageVariantDoc) :=
  if imageFormatsValues.contains imageFormat then
    if ((db.find? (matchesQuad imageId width height imageFormat)).isSome : Bool) then
      .error .conflict
    else
      let d : ImageVariantDoc :=
        { docId := nextId, imageId := imageId, width := width, height := height,
          s3Key := s3Key, s3Bucket := s3Bucket, status := .queued,
          originalS3Key := originalS3Key, fileSize := 0, failedReason := none,
          failedAt := none, requeueCount := 0, imageFormat := imageFormat,
          processingStartedAt := none, processingCompletedAt := none,
          createdAt := now }
      .ok (d, db ++ [d])
  else .error (.validationError "imageFormat")

/-- Idempotency token built by `addImageVariantJob` on first admission:
`imageId_WxH.format.recordId.millis`. -/
def admissionJobId (data : ImageVariantJobData) (nowMs : Nat) : String :=
  data.imageId ++ "_" ++ toString data.width ++ "x" ++ toString data.height ++
    "." ++ data.imageFormat ++ "." ++ toString data.mongoDocId ++ "." ++
    toString nowMs

/-- `addImageVariantJob`: appends a `process-image-variant` job carrying the
payload and the admission idempotency token. -/
def addImageVariantJob (q : List QueuedJob) (data : ImageVariantJobData)
    (nowMs : Nat) : List QueuedJob :=
  q ++ [{ name := "process-image-variant", data := data,
          jobId := admissionJobId data nowMs }]

namespace ImageService

/-- `ImageService.handleForceResize`: looks up the record for the quadruple,
deletes it from Mongo, then deletes its rendition key from S3.  The catch
block logs and rethrows (`throw e`), so a failing delete propagates; the
success of each external delete is passed in as a flag. -/
def handleForceResize (st : SysState) (imageId : String) (width height : Nat)
    (format : String) (forceResize mongoDeleteOk s3DeleteOk : Bool) :
    Except SvcError SysState :=
  if !forceResize then .ok st
  else
    match st.db.find? (matchesQuad imageId width height format) with
    | none => .ok st
    | some v =>
      if !mongoDeleteOk then .error (.mongoDeleteFailed v.docId)
      else
        let st1 : SysState := { st with db := st.db.filter (fun d => d.docId != v.docId) }
        if !s3DeleteOk then .error (.s3DeleteFailed v.s3Key)
        else .ok { st1 with s3 := st1.s3.filter (fun kv => kv.1 != v.s3Key) }

/-- Admission tail of `getOrCreateVariant` (the `failed`-or-absent fall
through): derive the keys, head the original, insert the record, enqueue the
job and serve the original.  `interleaved` holds documents inserted by
concurrent resolver calls between this call's `findOne` and its `create`;
they are visible to the unique-index check of the insert. -/
def admitVariant (st : SysState) (imageId : String) (width height : Nat)
    (format : String) (interleaved : List ImageVariantDoc) (now : Nat) :
    Except SvcError (String × Bool × SysState) :=
  let originalS3Key := S3Service.getOriginalKey imageId
  match S3Service.getVariantKey imageId width height format with
  | .error e => .error e
  | .ok variantS3Key =>
    if !(S3Service.existsKey st.s3 originalS3Key) then
      .error (.notFound imageId)
    else
      match createVariantDoc (st.db ++ interleaved) st.nextId imageId width
          height variantS3Key S3Service.getBucket originalS3Key format now with
      | .error e => .error e
      | .ok (doc, db2) =>
        let data : ImageVariantJobData :=
          { imageId := imageId, width := width, height := height,
            originalS3Key := originalS3Key, variantS3Key := variantS3Key,
            mongoDocId := doc.docId, imageFormat := format }
        let q2 := addImageVariantJob st.queue data now
        .ok (originalS3Key, true,
          { st with db := db2, queue := q2, nextId := st.nextId + 1 })

/-- `ImageService.getOrCreateVariant`: optional force-resize displacement,
then the lookup by quadruple branching on the record's status, falling
through to admission on `failed` or no record.  The outer catch only logs
and rethrows, so every error raised inside is surfaced to the caller. -/
def getOrCreateVariant (st : SysState) (imageId : String) (width height : Nat)
    (format : String) (forceResize mongoDeleteOk s3DeleteOk : Bool)
    (interleaved : List ImageVariantDoc) (now : Nat) :
    Except SvcError (String × Bool × SysState) :=
  match handleForceResize st imageId width height format forceResize
      mongoDeleteOk s3DeleteOk with
  | .error e => .error e
  | .ok st1 =>
    match st1.db.find? (matchesQuad imageId width height format) with
    | some v =>
      match v.status with
      | .ready => .ok (v.s3Key, false, st1)
      | .queued => .ok (v.originalS3Key, true, st1)
      | .processing => .ok (v.originalS3Key, true, st1)
      | .failed => admitVariant st1 imageId width height format interleaved now
    | none => admitVariant st1 imageId width height format interleaved now

end ImageService

/-- Errors raised by the worker's pipeline steps, with the messages the
source attaches to them. -/
inductive WorkerErr
  | recordMissing (docId : Nat)
  | processingUpdateFailed (docId : Nat)
  | sourceUnavailable (s3Key : String)
  | readyUpdateFailed (docId : Nat)
deriving DecidableEq, Repr

/-- Error messages of the worker's thrown `Error`s. -/
def WorkerErr.message : WorkerErr → String
  | .recordMissing i => "MongoDB document not found: " ++ toString i
  | .processingUpdateFailed i =>
      "Failed to update document to Processing status: " ++ toString i
  | .sourceUnavailable k => "S3 download failed: " ++ k
  | .readyUpdateFailed i =>
      "Failed to update MongoDB document to Ready: " ++ toString i

/-- Update applied by the worker's mark-processing step. -/
def setProcessing (now : Nat) (d : ImageVariantDoc) : ImageVariantDoc :=
  { d with status := .processing, processingStartedAt := some now }

/-- Update applied by the worker's mark-ready step. -/
def setReady (resizedSize now : Nat) (d : ImageVariantDoc) : ImageVariantDoc :=
  { d with
    status := .ready,
    fileSize := resizedSize,
    processingCompletedAt := some now }

/-- Update applied by the failure annotations (both the pipeline catch and
the start of the `failed` hook). -/
def setFailedMark (msg : String) (now : Nat) (d : ImageVariantDoc) :
    ImageVariantDoc :=
  { d with status := .failed, failedReason := some msg, failedAt := some now }

/-- Update applied by the requeue branch of the `failed` hook. -/
def setRequeued (d : ImageVariantDoc) : ImageVariantDoc :=
  { d with
    status := .queued,
    requeueCount := d.requeueCount + 1,
    failedReason := none,
    failedAt := none }

/-- Step 2 of `processImageVariant` (mark processing): an update by id
setting `status := Processing` and `processingStartedAt`, with no predicate
on the current status of the record. -/
def markProcessing (db : List ImageVariantDoc) (docId : Nat) (now : Nat) :
    Option ImageVariantDoc × List ImageVariantDoc :=
  findByIdAndUpdate db docId (setProcessing now)

/-- The try block of `processImageVariant`: existence check, mark
processing, download, render (`resizedSize` is the length of the buffer
sharp produces), upload, mark ready.  Returns the result together with the
state as mutated so far, since updates that already happened persist when a
later step throws. -/
def processImageVariantTry (st : SysState) (job : ImageVariantJobData)
    (resizedSize : Nat) (now : Nat) : Except WorkerErr Nat × SysState :=
  match findDoc st.db job.mongoDocId with
  | none => (.error (.recordMissing job.mongoDocId), st)
  | some _ =>
    let step2 := markProcessing st.db job.mongoDocId now
    let st1 : SysState := { st with db := step2.2 }
    match step2.1 with
    | none => (.error (.processingUpdateFailed job.mongoDocId), st1)
    | some _ =>
      if !(S3Service.existsKey st1.s3 job.originalS3Key) then
        (.error (.sourceUnavailable job.originalS3Key), st1)
      else
        let s3u := st1.s3.filter (fun kv => kv.1 != job.variantS3Key) ++
          [(job.variantS3Key, resizedSize)]
        let st2 : SysState := { st1 with s3 := s3u }
        let step6 := findByIdAndUpdate st2.db job.mongoDocId
          (setReady resizedSize now)
        let st3 : SysState := { st2 with db := step6.2 }
        match step6.1 with
        | none => (.error (.readyUpdateFailed job.mongoDocId), st3)
        | some _ => (.ok resizedSize, st3)

/-- `processImageVariant`: the try block wrapped in the catch that
best-effort updates the record to `Failed` with the error message and
`failedAt`, then rethrows the error to trigger the queue's retry logic. -/
def processImageVariant (st : SysState) (job : ImageVariantJobData)
    (resizedSize : Nat) (now : Nat) : Except WorkerErr Nat × SysState :=
  match processImageVariantTry st job resizedSize now with
  | (.ok n, st1) => (.ok n, st1)
  | (.error e, st1) =>
    let db2 := (findByIdAndUpdate st1.db job.mongoDocId
      (setFailedMark e.message now)).2
    (.error e, { st1 with db := db2 })

/-- Idempotency token built by the `failed` hook when it requeues:
`imageId_WxH_recordId_millis`, underscore separated and with no format
component. -/
def requeueJobId (data : ImageVariantJobData) (nowMs : Nat) : String :=
  data.imageId ++ "_" ++ toString data.width ++ "x" ++ toString data.height ++
    "_" ++ toString data.mongoDocId ++ "_" ++ toString nowMs

/-- Outcome of the worker's `failed` event hook: the collection and queue it
leaves behind, and whether it returned early because the queue itself still
has attempts left for the job. -/
structure FailedHookResult where
  db : List ImageVariantDoc
  queue : List QueuedJob
  retriedByQueue : Bool
deriving DecidableEq, Repr

/-- The worker's `failed` event hook: record the failure on the document,
return early when attempts remain; otherwise load the record, stop when it
exists with `requeueCount` at least `2`, and otherwise enqueue a fresh job
with the requeue token and reset the record to `queued`, clearing
`failedReason` and `failedAt` and incrementing `requeueCount`. -/
def onFailedHook (db : List ImageVariantDoc) (q : List QueuedJob)
    (job : ImageVariantJobData) (errMessage : String)
    (attemptsMade maxAttempts : Nat) (now : Nat) : FailedHookResult :=
  let db1 := (findByIdAndUpdate db job.mongoDocId
    (setFailedMark errMessage now)).2
  if attemptsMade < maxAttempts then ⟨db1, q, true⟩
  else
    let variant := findDoc db1 job.mongoDocId
    let stop : Bool :=
      match variant with
      | some v => decide (v.requeueCount ≥ 2)
      | none => false
    if stop then ⟨db1, q, false⟩
    else
      let q1 := q ++ [⟨"process-image-variant", job, requeueJobId job now⟩]
      let db2 := (findByIdAndUpdate db1 job.mongoDocId setRequeued).2
      ⟨db2, q1, false⟩

/-- Spec-side idempotency-token format for jobs enqueued for a variant:
`imageId_WxH.format.recordId.unixMillis`. -/
def specIdempotencyToken (imageId : String) (width height : Nat)
    (format : String) (recordId nowMs : Nat) : String :=
  imageId ++ "_" ++ toString width ++ "x" ++ toString height ++ "." ++
    format ++ "." ++ toString recordId ++ "." ++ toString nowMs

/-- Underscore-separated token actually used by the requeue path. -/
def underscoreToken (imageId : String) (width height : Nat)
    (recordId nowMs : Nat) : String :=
  imageId ++ "_" ++ toString width ++ "x" ++ toString height ++ "_" ++
    toString recordId ++ "_" ++ toString nowMs

/-- Helper: whether an `Except` is a success. -/
def exceptOk {ε α : Type} : Except ε α → Bool
  | .ok _ => true
  | .error _ => false

deriving instance DecidableEq for Except

/-- Spec-side rendering of `strip_extension`: everything strictly before the
last dot of the filename, `none` when no dot occurs.  Written independently
of the source's index arithmetic so the two can be compared. -/
def stripExtension : List Char → Option (List Char)
  | [] => none
  | c :: cs =>
    match stripExtension cs with
    | some rest => some (c :: rest)
    | none => if c = '.' then some [] else none

/-- Spec-side variant key: `strip_extension(imageId) + "___" + width + "x" +
height + "." + format`. -/
def specVariantKey (imageId : String) (width height : Nat) (format : String) :
    Option String :=
  (stripExtension imageId.data).map
    (fun name => String.mk name ++ "___" ++ toString width ++ "x" ++
      toString height ++ "." ++ format)

/-- The `lastIndexOf`-based slice of the source and the spec-side
`stripExtension` compute the same prefix. -/
theorem lastDotIndex_take_eq_stripExtension (cs : List Char) :
    (match S3Service.lastDotIndex cs with
      | some i => some (cs.take i)
      | none => none) = stripExtension cs := by
  induction cs with
  | nil => rfl
  | cons c cs ih =>
    simp only [S3Service.lastDotIndex, stripExtension]
    cases h : S3Service.lastDotIndex cs with
    | none =>
      rw [h] at ih
      rw [← ih]
      by_cases hc : c = '.' <;> simp [hc]
    | some i =>
      rw [h] at ih
      rw [← ih]
      simp [List.take]

/-- A filename containing a dot has a last-dot position. -/
theorem lastDotIndex_isSome_of_mem (cs : List Char) (h : '.' ∈ cs) :
    (S3Service.lastDotIndex cs).isSome := by
  induction cs with
  | nil => cases h
  | cons c cs ih =>
    simp only [S3Service.lastDotIndex]
    rcases List.mem_cons.mp h with hc | hm
    · cases hh : S3Service.lastDotIndex cs with
      | some i => simp
      | none => simp [← hc]
    · have := ih hm
      cases hh : S3Service.lastDotIndex cs with
      | some i => simp
      | none => rw [hh] at this; simp at this

/-- A concrete ready record occupying the `("a.jpg", 50, 50, "webp")`
quadruple, used as the base of concrete evaluations. -/
def sampleDoc : ImageVariantDoc :=
  { docId := 7, imageId := "a.jpg", width := 50, height := 50,
    s3Key := "a___50x50.webp", s3Bucket := S3Service.getBucket,
    status := .ready, originalS3Key := "a.jpg", fileSize := 1234,
    failedReason := none, failedAt := none, requeueCount := 0,
    imageFormat := "webp", processingStartedAt := none,
    processingCompletedAt := none, createdAt := 0 }

/-- A concrete resize-job payload referencing record id 9. -/
def jobFixture : ImageVariantJobData :=
  { imageId := "a.jpg", width := 50, height := 50, originalS3Key := "a.jpg",
    variantS3Key := "a___50x50.webp", mongoDocId := 9, imageFormat := "webp" }

/-- A failed record with one requeue cycle already spent, id 9. -/
def failedOnceDoc : ImageVariantDoc :=
  { sampleDoc with
    docId := 9,
    status := .failed,
    failedReason := some "boom",
    failedAt := some 5,
    requeueCount := 1 }

/-- `findDoc` after an id-preserving update by the same id returns the
updated document. -/
theorem findDoc_updById (db : List ImageVariantDoc) (i : Nat)
    (f : ImageVariantDoc → ImageVariantDoc)
    (hf : ∀ d, (f d).docId = d.docId) :
    findDoc (updById db i f) i = (findDoc db i).map f := by
  induction db with
  | nil => rfl
  | cons d db ih =>
    by_cases h : (d.docId == i) = true
    · have hfd : ((f d).docId == i) = true := by rw [hf d]; exact h
      simp [findDoc, updById, List.find?, h, hfd]
    · have h2 : (d.docId == i) = false := by simpa using h
      simp only [findDoc, updById, List.map_cons] at ih ⊢
      rw [h2]
      simp only [Bool.false_eq_true, if_false, List.find?, h2]
      exact ih

/-- Every member of an updated collection comes from a member of the
original collection, either updated (when its id matches) or untouched. -/
theorem exists_of_mem_updById {db : List ImageVariantDoc} {i : Nat}
    {f : ImageVariantDoc → ImageVariantDoc} {x : ImageVariantDoc}
    (hx : x ∈ updById db i f) :
    ∃ d ∈ db, ((d.docId == i) = true ∧ x = f d) ∨
      ((d.docId == i) = false ∧ x = d) := by
  obtain ⟨d, hd, he⟩ := List.mem_map.mp hx
  refine ⟨d, hd, ?_⟩
  by_cases h : (d.docId == i) = true
  · exact Or.inl ⟨h, by rw [← he]; simp [h]⟩
  · have h2 : (d.docId == i) = false := by simpa using h
    exact Or.inr ⟨h2, by rw [← he]; simp [h2]⟩

/-- C3: for every imageId containing a dot, the variant key is the pure
function of the quadruple the spec gives:
`strip_extension(imageId) ++ "___" ++ W ++ "x" ++ H ++ "." ++ format`; and
the original's key is the imageId verbatim. -/
theorem C3_variant_key_formula (imageId : String) (width height : Nat)
    (format : String) (hdot : '.' ∈ imageId.data) :
    ∃ k, specVariantKey imageId width height format = some k ∧
      S3Service.getVariantKey imageId width height format = .ok k ∧
      S3Service.getOriginalKey imageId = imageId := by
  have hs := lastDotIndex_isSome_of_mem imageId.data hdot
  cases hi : S3Service.lastDotIndex imageId.data with
  | none => rw [hi] at hs; simp at hs
  | some i =>
    refine ⟨String.mk (imageId.data.take i) ++ "___" ++ toString width ++
      "x" ++ toString height ++ "." ++ format, ?_, ?_, rfl⟩
    · have hse := lastDotIndex_take_eq_stripExtension imageId.data
      rw [hi] at hse
      simp only [specVariantKey, ← hse]
      rfl
    · simp [S3Service.getVariantKey, hi]

/-- C3 witness: concrete instance for `pic.png` at 200x100 webp. -/
theorem C3_variant_key_formula_witness :
    '.' ∈ "pic.png".data ∧
      ∃ k, specVariantKey "pic.png" 200 100 "webp" = some k ∧
        S3Service.getVariantKey "pic.png" 200 100 "webp" = .ok k ∧
        S3Service.getOriginalKey "pic.png" = "pic.png" :=
  ⟨by decide, C3_variant_key_formula "pic.png" 200 100 "webp" (by decide)⟩

/-- C8 counterexample: the token the requeue path builds for a concrete job
is not the spec's `imageId_WxH.format.recordId.millis` token. -/
theorem C8_requeue_token_diverges :
    requeueJobId jobFixture 5 ≠ specIdempotencyToken "a.jpg" 50 50 "webp" 9 5 := by
  decide

/-- C8 amended: only first-admission jobs carry the
`imageId_WxH.format.recordId.millis` token; jobs re-enqueued by the requeue
policy carry the underscore-separated `imageId_WxH_recordId_millis` token
with no format component. -/
theorem C8_token_formats (q : List QueuedJob) (data : ImageVariantJobData)
    (nowMs : Nat) :
    admissionJobId data nowMs = specIdempotencyToken data.imageId data.width
      data.height data.imageFormat data.mongoDocId nowMs ∧
    requeueJobId data nowMs = underscoreToken data.imageId data.width
      data.height data.mongoDocId nowMs ∧
    (addImageVariantJob q data nowMs).map (fun j => j.jobId) =
      q.map (fun j => j.jobId) ++ [specIdempotencyToken data.imageId
        data.width data.height data.imageFormat data.mongoDocId nowMs] := by
  refine ⟨rfl, rfl, ?_⟩
  simp [addImageVariantJob, admissionJobId, specIdempotencyToken]

/-- C9: the query schema does accept `format=jpg`, and the controller passes
the value through unchanged, but there is no `jpg→jpeg` alias: the Mongoose
enum on `imageFormat` admits only `png`, `jpeg`, `webp`, so the admission
for `format=jpg` fails with a validation error while the identical request
with `format=jpeg` succeeds.  The concrete state has no record for the
quadruple and the original `a.jpg` present in the object store. -/
theorem C9_jpg_not_aliased :
    imageQueryFormatAccepted "jpg" = true ∧
    controllerImageFormat (some "jpg") = "jpg" ∧
    ImageService.getOrCreateVariant ⟨[], [("a.jpg", 2048)], [], 1⟩ "a.jpg"
      50 50 "jpg" false true true [] 0 = .error (.validationError "imageFormat") ∧
    exceptOk (ImageService.getOrCreateVariant ⟨[], [("a.jpg", 2048)], [], 1⟩
      "a.jpg" 50 50 "jpeg" false true true [] 0) = true := by
  refine ⟨rfl, rfl, by decide, by decide⟩

/-- C1 counterexample: two admissions race on `("a.jpg", 50, 50, "webp")`;
the competing resolver's record lands between this call's `findOne` and its
`create`, the insert hits the unique index, and the duplicate-key error is
returned to the caller of `getOrCreateVariant` — it is not swallowed and no
re-read happens. -/
theorem C1_conflict_surfaced :
    ImageService.getOrCreateVariant ⟨[], [("a.jpg", 2048)], [], 1⟩ "a.jpg"
      50 50 "webp" false true true
      [{ sampleDoc with docId := 9, status := .queued }] 0
      = .error .conflict := by decide

/-- C1 amended: the resolver has no duplicate-key recovery.  Whenever the
`findOne` misses but the insert sees a record for the quadruple (the racing
case), `getOrCreateVariant` propagates the Conflict to its caller. -/
theorem C1_conflict_propagates (st : SysState) (imageId : String)
    (width height : Nat) (format : String) (mok s3ok : Bool)
    (interleaved : List ImageVariantDoc) (now : Nat)
    (hnf : st.db.find? (matchesQuad imageId width height format) = none)
    (hdot : '.' ∈ imageId.data)
    (horig : S3Service.existsKey st.s3 imageId = true)
    (hfmt : imageFormatsValues.contains format = true)
    (hdup : ((st.db ++ interleaved).find?
      (matchesQuad imageId width height format)).isSome = true) :
    ImageService.getOrCreateVariant st imageId width height format false mok
      s3ok interleaved now = .error .conflict := by
  have hs := lastDotIndex_isSome_of_mem imageId.data hdot
  cases hi : S3Service.lastDotIndex imageId.data with
  | none => rw [hi] at hs; simp at hs
  | some i =>
    have hnone := List.find?_eq_none.mp hnf
    have hmem : format ∈ imageFormatsValues := by simpa using hfmt
    have hex : ∃ x ∈ interleaved,
        matchesQuad imageId width height format x = true := by
      have hdup2 := List.find?_isSome.mp hdup
      obtain ⟨x, hx, hpx⟩ := hdup2
      rcases List.mem_append.mp hx with hxl | hxr
      · exact absurd hpx (hnone x hxl)
      · exact ⟨x, hxr, hpx⟩
    simp [ImageService.getOrCreateVariant, ImageService.handleForceResize,
      hnf, ImageService.admitVariant, S3Service.getVariantKey, hi,
      S3Service.getOriginalKey, horig, createVariantDoc, hmem, hex]

/-- C1 amended witness: the racing scenario at concrete inputs. -/
theorem C1_conflict_propagates_witness :
    (([] : List ImageVariantDoc).find? (matchesQuad "a.jpg" 50 50 "webp")
        = none) ∧
    ImageService.getOrCreateVariant ⟨[], [("a.jpg", 2048)], [], 1⟩ "a.jpg"
      50 50 "webp" false false false
      [{ sampleDoc with docId := 9, status := .queued }] 3
      = .error .conflict :=
  ⟨by decide,
    C1_conflict_propagates ⟨[], [("a.jpg", 2048)], [], 1⟩ "a.jpg" 50 50
      "webp" false false [{ sampleDoc with docId := 9, status := .queued }] 3
      (by decide) (by decide) (by decide) (by decide) (by decide)⟩

/-- C2 failing input: a record for `("a.jpg", 50, 50, "webp")` exists with
status `failed` (requeues exhausted), the original is present, and
`forceResize` is off.  The claim (and the source's own comment, `Variant
does not exist or failed - create new one`) say a fresh `queued` record is
inserted and a job enqueued; instead the insert collides with the failed
record on the unique index and `getOrCreateVariant` raises the
duplicate-key Conflict. -/
theorem C2_failed_record_blocks_admission :
    ImageService.getOrCreateVariant
      ⟨[{ sampleDoc with status := .failed, failedReason := some "render failed", failedAt := some 5, requeueCount := 2 }],
        [("a.jpg", 2048)], [], 2⟩
      "a.jpg" 50 50 "webp" false true true [] 10 = .error .conflict := by
  decide

/-- C5 counterexample: the mark-processing step is an unconditional update
by id — run against a `ready` record it moves the record straight to
`processing`, a transition out of `ready`. -/
theorem C5_ready_marked_processing :
    sampleDoc.status = .ready ∧
    ((markProcessing [sampleDoc] 7 3).2.map (fun d => d.status))
      = [ImageStatus.processing] := by decide

/-- C5 amended: the worker's mark-processing step carries no predicate on
the record's current status: for any record with the job's id — whatever
its status, including `ready` and `failed` — the update sets it to
`processing`; the step fails only when no record has the id. -/
theorem C5_mark_processing_unconditional (db : List ImageVariantDoc)
    (docId now : Nat) (v : ImageVariantDoc)
    (hv : findDoc db docId = some v) :
    (markProcessing db docId now).1 = some (setProcessing now v) ∧
    (setProcessing now v).status = ImageStatus.processing ∧
    (markProcessing db docId now).2 = updById db docId (setProcessing now) := by
  refine ⟨?_, rfl, ?_⟩ <;> simp [markProcessing, findByIdAndUpdate, hv]

/-- C5 amended witness: a `failed` record is moved directly to
`processing`. -/
theorem C5_mark_processing_unconditional_witness :
    findDoc [failedOnceDoc] 9 = some failedOnceDoc ∧
    (markProcessing [failedOnceDoc] 9 4).1
      = some (setProcessing 4 failedOnceDoc) :=
  ⟨by decide,
    (C5_mark_processing_unconditional [failedOnceDoc] 9 4 failedOnceDoc
      (by decide)).1⟩

/-- C6 counterexample: when the existence check loads no record, the job
fails with the `MongoDB document not found` error, but nothing marks it
terminal: with attempts remaining (1 of 3 made) the `failed` hook returns
early and the queue retries the job like any other step failure. -/
theorem C6_record_missing_retried :
    (processImageVariant ⟨[], [("a.jpg", 2048)], [], 1⟩ jobFixture 77 0).1
      = .error (.recordMissing 9) ∧
    (onFailedHook [] [] jobFixture (WorkerErr.recordMissing 9).message 1 3
      0).retriedByQueue = true := by decide

/-- C6 amended: the failure disposition is independent of the error: for
any error message — the missing-record error included — the job is left to
the queue's attempt-level retry exactly when attempts remain
(`attemptsMade < attempts`); no error kind is treated as terminal. -/
theorem C6_retry_decision_ignores_error (db : List ImageVariantDoc)
    (q : List QueuedJob) (job : ImageVariantJobData) (msg : String)
    (attemptsMade maxAttempts now : Nat) :
    (onFailedHook db q job msg attemptsMade maxAttempts now).retriedByQueue
      = decide (attemptsMade < maxAttempts) := by
  unfold onFailedHook
  by_cases h : attemptsMade < maxAttempts
  · simp [h]
  · simp only [if_neg h, decide_eq_false h]
    split <;> rfl

/-- C7 counterexample: with `forceResize` and an existing record, a failing
S3 delete is rethrown: the resolution aborts with the delete error instead
of proceeding to the lookup and admission. -/
theorem C7_delete_failure_aborts :
    ImageService.getOrCreateVariant
      ⟨[sampleDoc], [("a.jpg", 2048), ("a___50x50.webp", 100)], [], 2⟩
      "a.jpg" 50 50 "webp" true true false [] 0
      = .error (.s3DeleteFailed "a___50x50.webp") := by decide

/-- C7 amended: the force-resize deletes are not best-effort.  Whenever a
record exists for the quadruple, a failure of the S3 delete (or of the
Mongo delete) is rethrown by `handleForceResize` and propagated by
`getOrCreateVariant`, aborting the resolution. -/
theorem C7_force_delete_failure_propagates (st : SysState) (imageId : String)
    (width height : Nat) (format : String) (v : ImageVariantDoc)
    (interleaved : List ImageVariantDoc) (now : Nat)
    (hv : st.db.find? (matchesQuad imageId width height format) = some v) :
    ImageService.getOrCreateVariant st imageId width height format true true
      false interleaved now = .error (.s3DeleteFailed v.s3Key) ∧
    ImageService.getOrCreateVariant st imageId width height format true false
      false interleaved now = .error (.mongoDeleteFailed v.docId) := by
  constructor <;>
    simp [ImageService.getOrCreateVariant, ImageService.handleForceResize, hv]

/-- C7 amended witness: concrete aborted force-resize. -/
theorem C7_force_delete_failure_propagates_witness :
    ([sampleDoc].find? (matchesQuad "a.jpg" 50 50 "webp") = some sampleDoc) ∧
    ImageService.getOrCreateVariant
      ⟨[sampleDoc], [("a.jpg", 2048), ("a___50x50.webp", 100)], [], 2⟩
      "a.jpg" 50 50 "webp" true false false [] 1
      = .error (.mongoDeleteFailed 7) :=
  ⟨by decide,
    (C7_force_delete_failure_propagates
      ⟨[sampleDoc], [("a.jpg", 2048), ("a___50x50.webp", 100)], [], 2⟩
      "a.jpg" 50 50 "webp" sampleDoc [] 1 (by decide)).2⟩

/-- Shape of the `failed` hook at final failure when the loaded record has
`requeueCount ≥ 2`: the failure annotation is written and nothing is
enqueued. -/
theorem onFailedHook_stop (db : List ImageVariantDoc) (q : List QueuedJob)
    (job : ImageVariantJobData) (msg : String) (a m now : Nat)
    (v : ImageVariantDoc) (hnl : ¬ (a < m))
    (hv : findDoc db job.mongoDocId = some v)
    (hge : 2 ≤ v.requeueCount) :
    onFailedHook db q job msg a m now
      = ⟨updById db job.mongoDocId (setFailedMark msg now), q, false⟩ := by
  have hf1 : findDoc (updById db job.mongoDocId (setFailedMark msg now))
      job.mongoDocId = some (setFailedMark msg now v) := by
    rw [findDoc_updById db job.mongoDocId (setFailedMark msg now)
      (fun d => rfl), hv]
    rfl
  simp only [onFailedHook, findByIdAndUpdate, hv, if_neg hnl, hf1]
  simp [setFailedMark, hge]

/-- Shape of the `failed` hook at final failure when the loaded record has
`requeueCount < 2`: a fresh job carrying the requeue token is enqueued and
the record is reset. -/
theorem onFailedHook_requeue (db : List ImageVariantDoc) (q : List QueuedJob)
    (job : ImageVariantJobData) (msg : String) (a m now : Nat)
    (v : ImageVariantDoc) (hnl : ¬ (a < m))
    (hv : findDoc db job.mongoDocId = some v)
    (hlt : v.requeueCount < 2) :
    onFailedHook db q job msg a m now
      = ⟨updById (updById db job.mongoDocId (setFailedMark msg now))
            job.mongoDocId setRequeued,
         q ++ [⟨"process-image-variant", job, requeueJobId job now⟩],
         false⟩ := by
  have hf1 : findDoc (updById db job.mongoDocId (setFailedMark msg now))
      job.mongoDocId = some (setFailedMark msg now v) := by
    rw [findDoc_updById db job.mongoDocId (setFailedMark msg now)
      (fun d => rfl), hv]
    rfl
  have hn2 : ¬ (2 ≤ v.requeueCount) := Nat.not_le.mpr hlt
  simp only [onFailedHook, findByIdAndUpdate, hv, if_neg hnl, hf1]
  simp [setFailedMark, hn2]

/-- C4: the final-failure requeue policy is bounded.  At final failure on an
existing record, the hook leaves `requeueCount ≤ 2` everywhere; when
`requeueCount ≥ 2` it enqueues nothing and the record stays `failed`; when
`requeueCount < 2` it enqueues exactly one fresh job and resets the record
to `queued` with `failedReason` and `failedAt` cleared and `requeueCount`
incremented by exactly one — so a failed record is reset to `queued`
exactly when `requeueCount < MAX_REQUEUES = 2`. -/
theorem C4_requeue_policy_bounded (db : List ImageVariantDoc)
    (q : List QueuedJob) (job : ImageVariantJobData) (msg : String)
    (attemptsMade maxAttempts now : Nat) (v : ImageVariantDoc)
    (hfinal : maxAttempts ≤ attemptsMade)
    (hv : findDoc db job.mongoDocId = some v)
    (huniq : ∀ d ∈ db, d.docId = job.mongoDocId →
      d.requeueCount = v.requeueCount)
    (hbound : ∀ d ∈ db, d.requeueCount ≤ 2) :
    (∀ d ∈ (onFailedHook db q job msg attemptsMade maxAttempts now).db,
      d.requeueCount ≤ 2) ∧
    (2 ≤ v.requeueCount →
      (onFailedHook db q job msg attemptsMade maxAttempts now).queue = q ∧
      findDoc (onFailedHook db q job msg attemptsMade maxAttempts now).db
        job.mongoDocId = some (setFailedMark msg now v) ∧
      (setFailedMark msg now v).status = ImageStatus.failed ∧
      (setFailedMark msg now v).requeueCount = v.requeueCount) ∧
    (v.requeueCount < 2 →
      (onFailedHook db q job msg attemptsMade maxAttempts now).queue
        = q ++ [⟨"process-image-variant", job, requeueJobId job now⟩] ∧
      findDoc (onFailedHook db q job msg attemptsMade maxAttempts now).db
        job.mongoDocId = some (setRequeued (setFailedMark msg now v)) ∧
      (setRequeued (setFailedMark msg now v)).status = ImageStatus.queued ∧
      (setRequeued (setFailedMark msg now v)).failedReason = none ∧
      (setRequeued (setFailedMark msg now v)).failedAt = none ∧
      (setRequeued (setFailedMark msg now v)).requeueCount
        = v.requeueCount + 1) := by
  have hnl : ¬ (attemptsMade < maxAttempts) := Nat.not_lt.mpr hfinal
  have hf1 : findDoc (updById db job.mongoDocId (setFailedMark msg now))
      job.mongoDocId = some (setFailedMark msg now v) := by
    rw [findDoc_updById db job.mongoDocId (setFailedMark msg now)
      (fun d => rfl), hv]
    rfl
  by_cases hge : 2 ≤ v.requeueCount
  · rw [onFailedHook_stop db q job msg attemptsMade maxAttempts now v hnl hv hge]
    refine ⟨?_, fun _ => ⟨rfl, hf1, rfl, rfl⟩, fun hlt => absurd hge (by omega)⟩
    intro d hd
    obtain ⟨d0, hd0, hcase⟩ := exists_of_mem_updById hd
    rcases hcase with ⟨_, he⟩ | ⟨_, he⟩
    · rw [he]; exact hbound d0 hd0
    · rw [he]; exact hbound d0 hd0
  · have hlt : v.requeueCount < 2 := by omega
    rw [onFailedHook_requeue db q job msg attemptsMade maxAttempts now v hnl
      hv hlt]
    have hf2 : findDoc (updById (updById db job.mongoDocId
        (setFailedMark msg now)) job.mongoDocId setRequeued) job.mongoDocId
        = some (setRequeued (setFailedMark msg now v)) := by
      rw [findDoc_updById _ job.mongoDocId setRequeued (fun d => rfl), hf1]
      rfl
    refine ⟨?_, fun hge2 => absurd hge2 (by omega),
      fun _ => ⟨rfl, hf2, rfl, rfl, rfl, rfl⟩⟩
    intro d hd
    obtain ⟨d1, hd1, hcase1⟩ := exists_of_mem_updById hd
    obtain ⟨d0, hd0, hcase0⟩ := exists_of_mem_updById hd1
    rcases hcase1 with ⟨hb1, he1⟩ | ⟨hb1, he1⟩
    · rcases hcase0 with ⟨hb0, he0⟩ | ⟨hb0, he0⟩
      · have hid : d0.docId = job.mongoDocId := eq_of_beq hb0
        have hrc : d0.requeueCount = v.requeueCount := huniq d0 hd0 hid
        rw [he1, he0]
        simp only [setRequeued, setFailedMark]
        omega
      · rw [he0] at hb1
        rw [hb0] at hb1
        cases hb1
    · rcases hcase0 with ⟨hb0, he0⟩ | ⟨hb0, he0⟩
      · rw [he0] at hb1
        have : (setFailedMark msg now d0).docId = d0.docId := rfl
        rw [this] at hb1
        rw [hb0] at hb1
        cases hb1
      · rw [he1, he0]
        exact hbound d0 hd0

/-- C4 witness: a failed record with one spent requeue is reset with the
bound preserved. -/
theorem C4_requeue_policy_bounded_witness :
    (3 : Nat) ≤ 3 ∧
    ∀ d ∈ (onFailedHook [failedOnceDoc] [] jobFixture "boom" 3 3 8).db,
      d.requeueCount ≤ 2 :=
  ⟨by decide,
    (C4_requeue_policy_bounded [failedOnceDoc] [] jobFixture "boom" 3 3 8
      failedOnceDoc (by decide) (by decide) (by decide) (by decide)).1⟩

/-- C10: the requeue guard stops only when the loaded record exists with
`requeueCount ≥ 2` — when the record has been deleted (the load by id
returns `none`), the final-failure hook still enqueues a fresh job carrying
the job's old payload, leaving the collection untouched. -/
theorem C10_requeue_despite_missing_record (db : List ImageVariantDoc)
    (q : List QueuedJob) (job : ImageVariantJobData) (msg : String)
    (attemptsMade maxAttempts now : Nat)
    (hfinal : maxAttempts ≤ attemptsMade)
    (hmiss : findDoc db job.mongoDocId = none) :
    onFailedHook db q job msg attemptsMade maxAttempts now
      = ⟨db, q ++ [⟨"process-image-variant", job, requeueJobId job now⟩],
          false⟩ := by
  have hnl : ¬ (attemptsMade < maxAttempts) := Nat.not_lt.mpr hfinal
  simp only [onFailedHook, findByIdAndUpdate, hmiss, if_neg hnl,
    Bool.false_eq_true, if_false]

/-- C10 witness: concrete requeue of a job whose record is gone. -/
theorem C10_requeue_despite_missing_record_witness :
    ((3 : Nat) ≤ 3 ∧ findDoc [] jobFixture.mongoDocId = none) ∧
    onFailedHook [] [] jobFixture "boom" 3 3 4
      = ⟨[], [⟨"process-image-variant", jobFixture, requeueJobId jobFixture 4⟩],
          false⟩ :=
  ⟨⟨by decide, by decide⟩,
    C10_requeue_despite_missing_record [] [] jobFixture "boom" 3 3 4
      (by decide) (by decide)⟩

end ImageResizer
